import Mathlib

/-!
Verification development for the bol.com product-ranking tracker
(`product_tracker.py`, `scheduler.py`).

The Python source is shallowly embedded:
* HTML pages are modelled as lists of `Element` values carrying exactly the
  attributes and text fragments that `_extract_products_from_html` inspects
  (BeautifulSoup traversals such as `find_all("a", href=True)` become filters
  over the document-ordered element list).
* network fetches are modelled as oracles `Nat → FetchResult`
  (page number to outcome); transport errors and non-200 statuses are the
  `httpError` / `exn` constructors, mirroring the `except` blocks.
* Python regular-expression searches used by the code are implemented as
  executable recursive functions over character lists.
-/

/-! ## Character and string utilities (Python primitives used by the code) -/

/-- Boolean test that the first list is a prefix of the second
(Python `str.startswith` on character lists). -/
def listStarts : List Char → List Char → Bool
  | [], _ => true
  | _ :: _, [] => false
  | p :: ps, c :: cs => p = c && listStarts ps cs

/-- Boolean substring test (Python `pat in s`). -/
def containsSub (pat : List Char) : List Char → Bool
  | [] => listStarts pat []
  | c :: rest => listStarts pat (c :: rest) || containsSub pat rest

/-- Python `href.startswith("http")` on strings. -/
def strStarts (p s : String) : Bool := listStarts p.data s.data

/-- Python `pat in s` on strings. -/
def strContains (pat s : String) : Bool := containsSub pat.data s.data

/-- Python slice `[:100]` used to bound extracted names. -/
def take100 (s : String) : String := String.mk (s.data.take 100)

/-- Drop leading whitespace characters. -/
def dropLeadWs (s : List Char) : List Char := s.dropWhile (fun c => c.isWhitespace)

/-- Python `str.strip()`: remove leading and trailing whitespace. -/
def pyStrip (s : List Char) : List Char := (dropLeadWs (dropLeadWs s).reverse).reverse

/-- Python `str.strip()` on strings. -/
def pyTrim (s : String) : String := String.mk (pyStrip s.data)

/-- Python `str.isdigit()`: nonempty and all characters are digits. -/
def pyIsdigit (s : String) : Bool := !s.data.isEmpty && s.data.all (fun c => c.isDigit)

/-- The Python regex search `re.search(r"/(\d{10,})/", s)` from
`get_product_id` and `_extract_products_from_html`: scan left to right for a
slash followed by a maximal digit run of length at least 10 that is
immediately terminated by another slash; return the digit run. -/
def searchId10 : List Char → Option (List Char)
  | [] => none
  | c :: rest =>
    if c = '/' then
      let d := rest.takeWhile (fun ch => ch.isDigit)
      if 10 ≤ d.length ∧ (rest.drop d.length).head? = some '/' then some d
      else searchId10 rest
    else searchId10 rest

/-- Python `re.fullmatch(r"\d{10,}", s)` from the data-attribute pass. -/
def fullmatchId10 (s : String) : Bool :=
  decide (10 ≤ s.data.length) && s.data.all (fun c => c.isDigit)

/-! ## Data model: product records and page elements -/

/-- A product record as built by `_extract_products_from_html`:
`{"id": ..., "name": ..., "url": ...}`. -/
structure Product where
  id : String
  name : String
  url : String
deriving DecidableEq, Repr

/-- One markup element, carrying exactly the observations the extractor makes
of it, in document order inside an `Html` list:
* `href`: the `href` attribute when the element is a hyperlink
  (`find_all("a", href=True)` selects exactly the elements with `href = some h`);
* `heading`: stripped text of the first `h2` descendant, else of the first
  `h3` descendant (`link.find("h2") or link.find("h3")`);
* `title`: the `title` attribute;
* `text`: `get_text(strip=True)` of the element itself;
* `ariaLabel`: the `aria-label` attribute;
* `dataTestid`: the `data-testid` attribute;
* `parentText`: stripped text of the first `h2`/`h3`/`span` found in the
  parent element, when the parent exists and has one;
* `dataProductId`: the `data-product-id` attribute
  (`find_all(attrs={"data-product-id": True})` selects the elements where it
  is `some pid`);
* `cardText`: stripped text of the first `h2`/`h3`/`span` descendant. -/
structure Element where
  href : Option String
  heading : Option String
  title : Option String
  text : String
  ariaLabel : Option String
  dataTestid : Option String
  parentText : Option String
  dataProductId : Option String
  cardText : Option String
deriving DecidableEq, Repr

/-- A page of markup: its elements in document order. -/
abbrev Html := List Element

/-- Python truthiness of an optional string attribute (`None` and the empty
string are falsy). -/
def optTruthy : Option String → Bool
  | some s => s ≠ ""
  | none => false

/-- The generic UI labels rejected by name strategy 3. -/
def denyLabels : List String := ["Meer verkopers", "Bekijk product", "Bekijk details"]

/-- The sentinel name used when no strategy yields a usable name. -/
def unknownName : String := "Unknown Product"

/-- The name-resolution `if/elif` chain for a hyperlink element
(strategies 1-5 of `_extract_products_from_html`). -/
def anchorName (e : Element) : String :=
  if optTruthy e.heading then take100 (e.heading.getD "")
  else if optTruthy e.title then take100 (pyTrim (e.title.getD ""))
  else if e.text ≠ "" then
    (if 10 < e.text.data.length ∧ ¬ pyIsdigit e.text ∧ e.text ∉ denyLabels
     then take100 e.text else unknownName)
  else if optTruthy e.ariaLabel then take100 (pyTrim (e.ariaLabel.getD ""))
  else if optTruthy e.dataTestid ∧ strContains "product" (e.dataTestid.getD "") then
    (if optTruthy e.parentText then take100 (e.parentText.getD "") else unknownName)
  else unknownName

/-- The record the first pass builds from a hyperlink element, when the
element has an `href` containing `/p/` with an extractable product id
(`None` when the element is skipped). -/
def anchorRecord (e : Element) : Option Product :=
  match e.href with
  | none => none
  | some href =>
    if strContains "/p/" href then
      match searchId10 href.data with
      | some d =>
        some { id := String.mk d
               name := anchorName e
               url := if strStarts "http" href then href
                      else "https://www.bol.com" ++ href }
      | none => none
    else none

/-- Name resolution for the data-attribute pass
(`elem.find("h2") or elem.find("h3") or elem.find("span")`, kept when the
stripped text is longer than 3 characters). -/
def cardName (e : Element) : String :=
  match e.cardText with
  | some t => if t ≠ "" ∧ 3 < t.data.length then take100 t else unknownName
  | none => unknownName

/-- The record the second pass builds from an element carrying a well-formed
`data-product-id` attribute, with a synthesized canonical URL. -/
def cardRecord (e : Element) : Option Product :=
  match e.dataProductId with
  | none => none
  | some pid =>
    if pid ≠ "" ∧ fullmatchId10 pid then
      some { id := pid, name := cardName e
             url := "https://www.bol.com/nl/nl/p/" ++ pid ++ "/" }
    else none

/-- First pass of `_extract_products_from_html`: walk the hyperlink elements
in document order, skipping ids already in the dedupe set `seen`; returns the
extracted records and the final dedupe set. -/
def extractPass1 : List Element → List String → List Product × List String
  | [], seen => ([], seen)
  | e :: rest, seen =>
    match anchorRecord e with
    | some r =>
      if r.id ∈ seen then extractPass1 rest seen
      else
        let p := extractPass1 rest (r.id :: seen)
        (r :: p.1, p.2)
    | none => extractPass1 rest seen

/-- Second pass of `_extract_products_from_html`: walk the elements carrying a
`data-product-id` attribute, appending records whose id was not already
deduplicated. -/
def extractPass2 : List Element → List String → List Product
  | [], _ => []
  | e :: rest, seen =>
    match cardRecord e with
    | some r =>
      if r.id ∈ seen then extractPass2 rest seen
      else r :: extractPass2 rest (r.id :: seen)
    | none => extractPass2 rest seen

/-- `_extract_products_from_html`: both passes over one page of markup,
sharing one dedupe set. -/
def _extract_products_from_html (doc : Html) : List Product :=
  let p1 := extractPass1 doc []
  p1.1 ++ extractPass2 doc p1.2

/-! ## Ranking Locator: page loops, fallback protocol, result -/

/-- Outcome of one lightweight (mobile-header) page fetch:
HTTP 200 with markup, a non-200 status, or a raised exception
(transport or parse error caught by the per-page `except`). -/
inductive FetchResult where
  | ok (h : Html)
  | httpError
  | exn
deriving DecidableEq, Repr

/-- Outcome of one rendered (headless-browser) page fetch: a rendered page,
a `WebDriverException`, or any other exception reaching the outer handler. -/
inductive BFetchResult where
  | ok (h : Html)
  | wde
  | fatal
deriving DecidableEq, Repr

/-- The per-search target outcome dictionary
`{"found": ..., "page": ..., "position_on_page": ..., "page_product": ...}`. -/
structure TargetInfo where
  found : Bool
  page : Option Nat
  position_on_page : Option Nat
  page_product : Option Nat
deriving DecidableEq, Repr

/-- The initial target dictionary (no match recorded). -/
def noInfo : TargetInfo := ⟨false, none, none, none⟩

/-- What one strategy run returns, together with the number of page fetches it
issued (one per loop iteration that reaches the network request). -/
structure SearchOut where
  products : List Product
  info : TargetInfo
  fetches : Nat
deriving DecidableEq, Repr

/-- 1-based position of the first record with the given id
(`for pos, product in enumerate(page_products, 1)` with `break`). -/
def idxOf1 : List Product → String → Option Nat
  | [], _ => none
  | p :: rest, t => if p.id = t then some 1 else (idxOf1 rest t).map (· + 1)

/-- Per-page target check guarded by Python truthiness of
`target_product_id`. -/
def pageHit (tgt : Option String) (ps : List Product) : Option Nat :=
  match tgt with
  | some t => if t = "" then none else idxOf1 ps t
  | none => none

/-- First accumulated record with the given id
(the `for product in products` lookup in `find_product_ranking`). -/
def firstWithId : List Product → String → Option Product
  | [], _ => none
  | p :: rest, t => if p.id = t then some p else firstWithId rest t

/-- The page loop of `search_products_mobile` over the remaining page numbers:
fetch, extract, extend the accumulator, check the target, and stop on a match
(recording `len(products) - len(page_products) + pos`), on a non-200 status,
or on an exception. -/
def mobilePages (fetch : Nat → FetchResult) (tgt : Option String) :
    List Nat → List Product → Nat → SearchOut
  | [], acc, f => ⟨acc, noInfo, f⟩
  | page :: rest, acc, f =>
    match fetch page with
    | FetchResult.ok h =>
      let ps := _extract_products_from_html h
      match pageHit tgt ps with
      | some pos =>
        ⟨acc ++ ps,
         ⟨true, some page, some pos, some ((acc ++ ps).length - ps.length + pos)⟩,
         f + 1⟩
      | none => mobilePages fetch tgt rest (acc ++ ps) (f + 1)
    | FetchResult.httpError => ⟨acc, noInfo, f + 1⟩
    | FetchResult.exn => ⟨acc, noInfo, f + 1⟩

/-- `search_products_mobile(keyword, max_pages, target_product_id)`: pages
`1..max_pages` in order, starting from an empty accumulator. The keyword is
absorbed into the fetch oracle. -/
def search_products_mobile (fetch : Nat → FetchResult) (maxPages : Nat)
    (tgt : Option String) : SearchOut :=
  mobilePages fetch tgt (List.range' 1 maxPages) [] 0

/-- The page loop of `search_products_browser`: like the mobile loop, but a
page yielding zero extracted records also stops the loop, and browser errors
(`WebDriverException` or the outer handler) stop it with the accumulated
records. -/
def browserPages (bfetch : Nat → BFetchResult) (tgt : Option String) :
    List Nat → List Product → Nat → SearchOut
  | [], acc, f => ⟨acc, noInfo, f⟩
  | page :: rest, acc, f =>
    match bfetch page with
    | BFetchResult.ok h =>
      let ps := _extract_products_from_html h
      match pageHit tgt ps with
      | some pos =>
        ⟨acc ++ ps,
         ⟨true, some page, some pos, some ((acc ++ ps).length - ps.length + pos)⟩,
         f + 1⟩
      | none =>
        if ps.length = 0 then ⟨acc ++ ps, noInfo, f + 1⟩
        else browserPages bfetch tgt rest (acc ++ ps) (f + 1)
    | BFetchResult.wde => ⟨acc, noInfo, f + 1⟩
    | BFetchResult.fatal => ⟨acc, noInfo, f + 1⟩

/-- `search_products_browser`: unavailable Selenium (`HAS_SELENIUM = False`)
returns empty results without any fetch; otherwise the browser page loop
runs over pages `1..max_pages`. -/
def search_products_browser (avail : Bool) (bfetch : Nat → BFetchResult)
    (maxPages : Nat) (tgt : Option String) : SearchOut :=
  if avail then browserPages bfetch tgt (List.range' 1 maxPages) [] 0
  else ⟨[], noInfo, 0⟩

/-- The dictionary returned by `find_product_ranking`. -/
structure LocateResult where
  position : Option Nat
  page_product : Option Nat
  page : Option Nat
  product : Option Product
  total_found : Nat
deriving DecidableEq, Repr

/-- `find_product_ranking(keyword, target_product_id, max_pages)`: run the
mobile strategy; if it did not find the target, run the browser strategy and,
when that yielded at least one record, replace the accumulated list and the
target outcome with the browser ones; finally build the result dictionary. -/
def find_product_ranking (mfetch : Nat → FetchResult) (avail : Bool)
    (bfetch : Nat → BFetchResult) (maxPages : Nat) (t : String) : LocateResult :=
  let m := search_products_mobile mfetch maxPages (some t)
  let chosen :=
    if m.info.found then (m.products, m.info)
    else
      let b := search_products_browser avail bfetch maxPages (some t)
      if 0 < b.products.length then (b.products, b.info) else (m.products, m.info)
  if chosen.2.found then
    ⟨chosen.2.position_on_page, chosen.2.page_product, chosen.2.page,
     firstWithId chosen.1 t, chosen.1.length⟩
  else ⟨none, none, none, none, chosen.1.length⟩

/-- Page fetches issued by one `find_product_ranking` run, per strategy:
the mobile count, and the browser count (0 when the mobile strategy already
found the target, because the browser strategy is then never invoked). -/
def locateFetches (mfetch : Nat → FetchResult) (avail : Bool)
    (bfetch : Nat → BFetchResult) (maxPages : Nat) (t : String) : Nat × Nat :=
  let m := search_products_mobile mfetch maxPages (some t)
  if m.info.found then (m.fetches, 0)
  else (m.fetches, (search_products_browser avail bfetch maxPages (some t)).fetches)

/-! ## Input validation and URL-derived names -/

/-- `get_product_id(product_url)`: the regex search `/(\d{10,})/`, raising
`ValueError` when it fails (modelled as `Except.error`). -/
def get_product_id (url : String) : Except String String :=
  match searchId10 url.data with
  | some d => Except.ok (String.mk d)
  | none => Except.error "Could not extract product ID from URL"

/-- Specification-level wording of a well-formed product URL or id: it
contains a run of 10 or more digits between path delimiters. -/
def hasIdRun (url : String) : Prop :=
  ∃ a d b : List Char, url.data = a ++ '/' :: (d ++ '/' :: b) ∧
    (∀ c ∈ d, c.isDigit = true) ∧ 10 ≤ d.length

/-- Python `str.title()` restricted to the alphabetic/ASCII casing the slugs
use: uppercase a letter not preceded by a letter, lowercase the rest. -/
def pyTitleGo : Bool → List Char → List Char
  | _, [] => []
  | prevAlpha, c :: rest =>
    (if c.isAlpha then (if prevAlpha then c.toLower else c.toUpper) else c)
      :: pyTitleGo c.isAlpha rest

/-- Python `re.sub(r'\s+', ' ', s)`: collapse whitespace runs to one space. -/
def collapseWsGo : Bool → List Char → List Char
  | _, [] => []
  | prevWs, c :: rest =>
    if c.isWhitespace then
      (if prevWs then collapseWsGo true rest else ' ' :: collapseWsGo true rest)
    else c :: collapseWsGo false rest

/-- Slug post-processing used by `_extract_name_from_url`:
`.replace('-', ' ').title()`, whitespace collapsing, then `.strip()`. -/
def nameFromSlug (slug : List Char) : String :=
  String.mk (pyStrip (collapseWsGo false
    (pyTitleGo false (slug.map (fun c => if c = '-' then ' ' else c)))))

/-- The regex search `/p/([^/]+)/(\d{10,})/` at one position: the slug
between `/p/` and a 10-plus-digit id segment. -/
def slugAt (s : List Char) : Option (List Char) :=
  match s with
  | '/' :: 'p' :: '/' :: r =>
    let slug := r.takeWhile (fun c => c ≠ '/')
    if slug.isEmpty then none
    else
      match r.drop slug.length with
      | '/' :: r3 =>
        let d := r3.takeWhile (fun c => c.isDigit)
        if 10 ≤ d.length ∧ (r3.drop d.length).head? = some '/' then some slug
        else none
      | _ => none
  | _ => none

/-- Left-to-right search for the slug pattern. -/
def findSlug : List Char → Option (List Char)
  | [] => none
  | c :: rest =>
    match slugAt (c :: rest) with
    | some sl => some sl
    | none => findSlug rest

/-- Python `url.split('/')` (single-character split, keeping empty parts). -/
def splitOnChar (sep : Char) : List Char → List (List Char)
  | [] => [[]]
  | x :: rest =>
    let r := splitOnChar sep rest
    if x = sep then [] :: r
    else
      match r with
      | h :: t => (x :: h) :: t
      | [] => [[x]]

/-- The fallback loop of `_extract_name_from_url` over the URL parts: return
the first usable part (nonempty, not all digits, longer than 5 characters,
not a common URL component), cleaned up like a slug. -/
def fallbackParts : List String → String
  | [] => "Product from URL"
  | part :: rest =>
    if part ≠ "" ∧ ¬ pyIsdigit part = true ∧ 5 < part.data.length ∧
        part ∉ ["nl", "p", "www.bol.com", "https:", "http:"] then
      nameFromSlug part.data
    else fallbackParts rest

/-- `_extract_name_from_url(product_url)`: slug between `/p/` and the product
id when present, else the first usable URL part, else a fixed placeholder. -/
def _extract_name_from_url (url : String) : String :=
  match findSlug url.data with
  | some slug => nameFromSlug slug
  | none => fallbackParts ((splitOnChar '/' url.data).map String.mk)

/-! ## Batch-run name handling (`run_scheduled_checks`, lines 570-588) -/

/-- Stored name considered usable by the history-name logic: not NULL, not
empty, and not the literal string "None". -/
def storedUsable : Option String → Bool
  | none => false
  | some s => s ≠ "" && s ≠ "None"

/-- The name written into the appended history record for one entry:
start from the stored name, fall back to a URL-derived name when the stored
name is unusable, and override with the freshly located name only when that
name is truthy and not the sentinel. -/
def historyNameFor (stored : Option String) (url : String)
    (located : Option Product) : String :=
  let base := if storedUsable stored then stored.getD ""
              else _extract_name_from_url url
  match located with
  | some p => if p.name ≠ "" ∧ p.name ≠ unknownName then p.name else base
  | none => base

/-- Python falsiness of the stored name (`not product_name`). -/
def storedFalsy : Option String → Bool
  | none => true
  | some s => s = ""

/-- The opportunistic backfill of `tracked_products.product_name`
(`if not product_name and ranking.get("product")`): performed only when the
stored name is falsy, and it writes the located record name verbatim.
`none` means no backfill statement is executed. -/
def backfillStoredName (stored : Option String) (located : Option Product) :
    Option String :=
  if storedFalsy stored then located.map (fun p => p.name)
  else none

/-- The validation-relevant shape of `track_product(keyword, product_url)`:
the product id is derived from the URL before anything else; the
`ValueError` raised by `get_product_id` on a malformed URL is caught by the
surrounding handler, which returns `None`, so no fetch ever happens for such
an input. -/
def track_product (mfetch : Nat → FetchResult) (avail : Bool)
    (bfetch : Nat → BFetchResult) (maxPages : Nat) (url : String) :
    Option LocateResult :=
  match get_product_id url with
  | Except.error _ => none
  | Except.ok pid => some (find_product_ranking mfetch avail bfetch maxPages pid)

/-- Page fetches issued by one `track_product` run, per strategy. -/
def trackFetches (mfetch : Nat → FetchResult) (avail : Bool)
    (bfetch : Nat → BFetchResult) (maxPages : Nat) (url : String) : Nat × Nat :=
  match get_product_id url with
  | Except.error _ => (0, 0)
  | Except.ok pid => locateFetches mfetch avail bfetch maxPages pid

/-! ## Recurring trigger (`scheduler.py`) -/

/-- A local wall-clock instant: day index and second within the day. -/
structure LocalTime where
  day : Nat
  sec : Nat
deriving DecidableEq, Repr

/-- The fixed trigger time, 09:00:00, as seconds within a day. -/
def triggerSec : Nat := 9 * 3600

/-- Strict order on local instants. -/
def timeLt (a b : LocalTime) : Prop :=
  a.day < b.day ∨ (a.day = b.day ∧ a.sec < b.sec)

/-- `_get_next_run_time`: today at 09:00 when the current time is strictly
before 09:00, else tomorrow at 09:00 (`if now_dutch >= today_9am`). -/
def _get_next_run_time (now : LocalTime) : LocalTime :=
  if triggerSec ≤ now.sec then ⟨now.day + 1, triggerSec⟩ else ⟨now.day, triggerSec⟩

/-- Observable events of the scheduler loop body. -/
inductive SchedEv where
  | sleepEv
  | batchEv
deriving DecidableEq, Repr

/-- The `_scheduler_loop` control skeleton as a fuel-bounded trace. The shared
`running` flag is modelled as an oracle over read indices: read `r` is the
`while self.running` test, read `r + 1` is the re-check performed after the
sleep and immediately before `_run_daily_checks()`; each loop iteration
advances the read counter by two. -/
def schedulerLoopEvents (flag : Nat → Bool) : Nat → Nat → List SchedEv
  | 0, _ => []
  | Nat.succ fuel, r =>
    if flag r then
      SchedEv.sleepEv ::
        (if flag (r + 1) then SchedEv.batchEv :: schedulerLoopEvents flag fuel (r + 2)
         else schedulerLoopEvents flag fuel (r + 2))
    else []

/-! ## Specification-side definitions used for comparison -/

/-- Keep, for each identifier, only the record of its first occurrence in the
given scan order (the spec wording of the dedupe invariant). -/
def dedupeByFirst : List Product → List String → List Product
  | [], _ => []
  | r :: rest, seen =>
    if r.id ∈ seen then dedupeByFirst rest seen
    else r :: dedupeByFirst rest (r.id :: seen)

/-- The dedupe set accumulated by `dedupeByFirst`. -/
def seenAfter : List Product → List String → List String
  | [], seen => seen
  | r :: rest, seen =>
    if r.id ∈ seen then seenAfter rest seen
    else seenAfter rest (r.id :: seen)

/-- Candidate record of a single element, whichever shape it matches first
(used to phrase "first occurrence in document order" for a whole element). -/
def elemRecord (e : Element) : Option Product :=
  match anchorRecord e with
  | some r => some r
  | none => cardRecord e

/-- The record of the earliest element of the document yielding the given
identifier, reading the document once in document order. -/
def firstDocRecordFor (doc : Html) (pid : String) : Option Product :=
  firstWithId (doc.filterMap elemRecord) pid

/-! ## Extraction lemmas: both passes are first-occurrence dedupe runs -/

theorem extractPass1_eq (doc : List Element) : ∀ seen : List String,
    extractPass1 doc seen =
      (dedupeByFirst (doc.filterMap anchorRecord) seen,
       seenAfter (doc.filterMap anchorRecord) seen) := by
  induction doc with
  | nil => intro seen; rfl
  | cons e rest ih =>
    intro seen
    simp only [extractPass1, List.filterMap_cons]
    cases hrec : anchorRecord e with
    | none => simpa using ih seen
    | some r =>
      simp only [dedupeByFirst, seenAfter]
      by_cases hmem : r.id ∈ seen
      · simp [hmem, ih seen]
      · simp [hmem, ih (r.id :: seen)]

theorem extractPass2_eq (doc : List Element) : ∀ seen : List String,
    extractPass2 doc seen = dedupeByFirst (doc.filterMap cardRecord) seen := by
  induction doc with
  | nil => intro seen; rfl
  | cons e rest ih =>
    intro seen
    simp only [extractPass2, List.filterMap_cons]
    cases hrec : cardRecord e with
    | none => simpa using ih seen
    | some r =>
      simp only [dedupeByFirst]
      by_cases hmem : r.id ∈ seen
      · simp [hmem, ih seen]
      · simp [hmem, ih (r.id :: seen)]

theorem dedupeByFirst_append (A B : List Product) : ∀ seen : List String,
    dedupeByFirst (A ++ B) seen
      = dedupeByFirst A seen ++ dedupeByFirst B (seenAfter A seen) := by
  induction A with
  | nil => intro seen; rfl
  | cons r A ih =>
    intro seen
    simp only [List.cons_append, dedupeByFirst, seenAfter]
    by_cases h : r.id ∈ seen
    · simp [h, ih]
    · simp [h, ih]

/-- The extractor is exactly a first-occurrence dedupe over the candidate
records of the two passes, in scan order. -/
theorem extract_eq_dedupe (doc : Html) :
    _extract_products_from_html doc
      = dedupeByFirst (doc.filterMap anchorRecord ++ doc.filterMap cardRecord) [] := by
  simp only [_extract_products_from_html, extractPass1_eq, extractPass2_eq,
    dedupeByFirst_append]

theorem dedupeByFirst_nodup (l : List Product) : ∀ seen : List String,
    ((dedupeByFirst l seen).map Product.id).Nodup ∧
      ∀ x ∈ (dedupeByFirst l seen).map Product.id, x ∉ seen := by
  induction l with
  | nil => intro seen; exact ⟨List.nodup_nil, by simp [dedupeByFirst]⟩
  | cons r l ih =>
    intro seen
    simp only [dedupeByFirst]
    by_cases h : r.id ∈ seen
    · simpa [h] using ih seen
    · simp only [if_neg h, List.map_cons]
      obtain ⟨h1, h2⟩ := ih (r.id :: seen)
      refine ⟨List.nodup_cons.mpr ⟨fun hx => (h2 _ hx) (List.mem_cons_self _ _), h1⟩, ?_⟩
      intro x hx
      rcases List.mem_cons.mp hx with rfl | hx
      · exact h
      · intro hxs
        exact (h2 x hx) (List.mem_cons_of_mem _ hxs)

/-- One extractor call never returns two records with the same identifier. -/
theorem extract_ids_nodup (doc : Html) :
    ((_extract_products_from_html doc).map Product.id).Nodup := by
  rw [extract_eq_dedupe]
  exact (dedupeByFirst_nodup _ []).1

/-! ## Search-loop lemmas -/

/-- Page `q` is "good without the target" for the mobile strategy: the fetch
returns markup whose extraction does not contain the target. -/
def goodM (fetch : Nat → FetchResult) (t : String) (q : Nat) : Bool :=
  match fetch q with
  | FetchResult.ok h => (idxOf1 (_extract_products_from_html h) t).isNone
  | _ => false

/-- Concatenated extractions of the given pages (mobile oracle). -/
def prodsM (fetch : Nat → FetchResult) : List Nat → List Product
  | [] => []
  | q :: rest =>
    (match fetch q with
     | FetchResult.ok h => _extract_products_from_html h
     | _ => []) ++ prodsM fetch rest

/-- Page `q` is "good without the target" for the browser strategy: the fetch
renders markup whose extraction is nonempty and does not contain the target
(an empty extraction stops the browser loop). -/
def goodB (bfetch : Nat → BFetchResult) (t : String) (q : Nat) : Bool :=
  match bfetch q with
  | BFetchResult.ok h =>
    (idxOf1 (_extract_products_from_html h) t).isNone
      && decide ((_extract_products_from_html h).length ≠ 0)
  | _ => false

/-- Concatenated extractions of the given pages (browser oracle). -/
def prodsB (bfetch : Nat → BFetchResult) : List Nat → List Product
  | [] => []
  | q :: rest =>
    (match bfetch q with
     | BFetchResult.ok h => _extract_products_from_html h
     | _ => []) ++ prodsB bfetch rest

/-- A mobile fetch outcome that ends the page loop without a match. -/
def mErr (r : FetchResult) : Prop :=
  r = FetchResult.httpError ∨ r = FetchResult.exn

/-- A browser fetch outcome that ends the page loop without a match. -/
def bErr (r : BFetchResult) : Prop :=
  r = BFetchResult.wde ∨ r = BFetchResult.fatal

theorem mobilePages_skip (fetch : Nat → FetchResult) (t : String) (ht : ¬ t = "")
    (L : List Nat) : ∀ (rest : List Nat) (acc : List Product) (f : Nat),
    (∀ q ∈ L, goodM fetch t q = true) →
    mobilePages fetch (some t) (L ++ rest) acc f
      = mobilePages fetch (some t) rest (acc ++ prodsM fetch L) (f + L.length) := by
  induction L with
  | nil => intro rest acc f _; simp [prodsM]
  | cons q L ih =>
    intro rest acc f hg
    have hq := hg q (List.mem_cons_self _ _)
    unfold goodM at hq
    cases hfq : fetch q with
    | ok h =>
      rw [hfq] at hq
      have hidx : idxOf1 (_extract_products_from_html h) t = none :=
        Option.isNone_iff_eq_none.mp hq
      have hhit : pageHit (some t) (_extract_products_from_html h) = none := by
        simp [pageHit, ht, hidx]
      simp only [List.cons_append, mobilePages, hfq, hhit, List.append_eq]
      rw [ih rest (acc ++ _) (f + 1) (fun q2 hq2 => hg q2 (List.mem_cons_of_mem _ hq2))]
      have hN : f + 1 + L.length = f + (L.length + 1) := by omega
      simp only [prodsM, hfq, List.append_assoc, List.length_cons, hN]
    | httpError => rw [hfq] at hq; simp at hq
    | exn => rw [hfq] at hq; simp at hq

theorem mobilePages_found (fetch : Nat → FetchResult) (t : String) (ht : ¬ t = "")
    (p : Nat) (rest : List Nat) (acc : List Product) (f : Nat) (h : Html) (m : Nat)
    (hfp : fetch p = FetchResult.ok h)
    (hm : idxOf1 (_extract_products_from_html h) t = some m) :
    mobilePages fetch (some t) (p :: rest) acc f
      = ⟨acc ++ _extract_products_from_html h,
         ⟨true, some p, some m, some (acc.length + m)⟩, f + 1⟩ := by
  have hhit : pageHit (some t) (_extract_products_from_html h) = some m := by
    simp [pageHit, ht, hm]
  simp only [mobilePages, hfp, hhit]
  have harith : (acc ++ _extract_products_from_html h).length
      - (_extract_products_from_html h).length + m = acc.length + m := by
    simp [List.length_append]
  rw [harith]

theorem mobilePages_err (fetch : Nat → FetchResult) (t : String)
    (p : Nat) (rest : List Nat) (acc : List Product) (f : Nat)
    (he : mErr (fetch p)) :
    mobilePages fetch (some t) (p :: rest) acc f = ⟨acc, noInfo, f + 1⟩ := by
  rcases he with he | he <;> simp [mobilePages, he]

theorem mobilePages_fetches_le (fetch : Nat → FetchResult) (tgt : Option String)
    (L : List Nat) : ∀ (acc : List Product) (f : Nat),
    (mobilePages fetch tgt L acc f).fetches ≤ f + L.length := by
  induction L with
  | nil => intro acc f; simp [mobilePages]
  | cons q L ih =>
    intro acc f
    simp only [mobilePages, List.length_cons]
    cases hfq : fetch q with
    | ok h =>
      simp only [hfq]
      cases hhit : pageHit tgt (_extract_products_from_html h) with
      | some pos => simp [hhit]
      | none =>
        simp only [hhit]
        exact le_trans (ih _ (f + 1)) (by omega)
    | httpError => simp [hfq]
    | exn => simp [hfq]

theorem browserPages_skip (bfetch : Nat → BFetchResult) (t : String) (ht : ¬ t = "")
    (L : List Nat) : ∀ (rest : List Nat) (acc : List Product) (f : Nat),
    (∀ q ∈ L, goodB bfetch t q = true) →
    browserPages bfetch (some t) (L ++ rest) acc f
      = browserPages bfetch (some t) rest (acc ++ prodsB bfetch L) (f + L.length) := by
  induction L with
  | nil => intro rest acc f _; simp [prodsB]
  | cons q L ih =>
    intro rest acc f hg
    have hq := hg q (List.mem_cons_self _ _)
    unfold goodB at hq
    cases hfq : bfetch q with
    | ok h =>
      rw [hfq] at hq
      obtain ⟨hq1, hq2⟩ := Bool.and_eq_true_iff.mp hq
      have hidx : idxOf1 (_extract_products_from_html h) t = none :=
        Option.isNone_iff_eq_none.mp hq1
      have hne : ¬ (_extract_products_from_html h).length = 0 := of_decide_eq_true hq2
      have hhit : pageHit (some t) (_extract_products_from_html h) = none := by
        simp [pageHit, ht, hidx]
      simp only [List.cons_append, browserPages, hfq, hhit, if_neg hne, List.append_eq]
      rw [ih rest (acc ++ _) (f + 1) (fun q2 hq2b => hg q2 (List.mem_cons_of_mem _ hq2b))]
      have hN : f + 1 + L.length = f + (L.length + 1) := by omega
      simp only [prodsB, hfq, List.append_assoc, List.length_cons, hN]
    | wde => rw [hfq] at hq; simp at hq
    | fatal => rw [hfq] at hq; simp at hq

theorem browserPages_found (bfetch : Nat → BFetchResult) (t : String) (ht : ¬ t = "")
    (p : Nat) (rest : List Nat) (acc : List Product) (f : Nat) (h : Html) (m : Nat)
    (hfp : bfetch p = BFetchResult.ok h)
    (hm : idxOf1 (_extract_products_from_html h) t = some m) :
    browserPages bfetch (some t) (p :: rest) acc f
      = ⟨acc ++ _extract_products_from_html h,
         ⟨true, some p, some m, some (acc.length + m)⟩, f + 1⟩ := by
  have hhit : pageHit (some t) (_extract_products_from_html h) = some m := by
    simp [pageHit, ht, hm]
  simp only [browserPages, hfp, hhit]
  have harith : (acc ++ _extract_products_from_html h).length
      - (_extract_products_from_html h).length + m = acc.length + m := by
    simp [List.length_append]
  rw [harith]

theorem browserPages_err (bfetch : Nat → BFetchResult) (t : String)
    (p : Nat) (rest : List Nat) (acc : List Product) (f : Nat)
    (he : bErr (bfetch p)) :
    browserPages bfetch (some t) (p :: rest) acc f = ⟨acc, noInfo, f + 1⟩ := by
  rcases he with he | he <;> simp [browserPages, he]

theorem browserPages_fetches_le (bfetch : Nat → BFetchResult) (tgt : Option String)
    (L : List Nat) : ∀ (acc : List Product) (f : Nat),
    (browserPages bfetch tgt L acc f).fetches ≤ f + L.length := by
  induction L with
  | nil => intro acc f; simp [browserPages]
  | cons q L ih =>
    intro acc f
    simp only [browserPages, List.length_cons]
    cases hfq : bfetch q with
    | ok h =>
      simp only [hfq]
      cases hhit : pageHit tgt (_extract_products_from_html h) with
      | some pos => simp [hhit]
      | none =>
        simp only [hhit]
        by_cases hz : (_extract_products_from_html h).length = 0
        · simp [hz]
        · simp only [if_neg hz]
          exact le_trans (ih _ (f + 1)) (by omega)
    | wde => simp [hfq]
    | fatal => simp [hfq]

/-- Decomposition of the page range around the matching page. -/
theorem range_split (p k : Nat) (hp1 : 1 ≤ p) (hpk : p ≤ k) :
    List.range' 1 k = List.range' 1 (p - 1) ++ (p :: List.range' (p + 1) (k - p)) := by
  calc List.range' 1 k
      = List.range' 1 (((k - p) + 1) + (p - 1)) := by congr 1; omega
    _ = List.range' 1 (p - 1) ++ List.range' (1 + (p - 1)) ((k - p) + 1) :=
        (List.range'_append_1 1 (p - 1) ((k - p) + 1)).symm
    _ = List.range' 1 (p - 1) ++ (p :: List.range' (p + 1) (k - p)) := by
        have e1 : 1 + (p - 1) = p := by omega
        rw [e1, List.range'_succ]

/-- A mobile run whose target first appears on page `p` at on-page position
`m`: full characterization of the returned products, match info and fetch
count. -/
theorem mobile_found_run (mfetch : Nat → FetchResult) (k p m : Nat) (t : String)
    (h : Html) (ht : ¬ t = "") (hp1 : 1 ≤ p) (hpk : p ≤ k)
    (hg : ∀ q ∈ List.range' 1 (p - 1), goodM mfetch t q = true)
    (hfp : mfetch p = FetchResult.ok h)
    (hm : idxOf1 (_extract_products_from_html h) t = some m) :
    search_products_mobile mfetch k (some t)
      = ⟨prodsM mfetch (List.range' 1 (p - 1)) ++ _extract_products_from_html h,
         ⟨true, some p, some m,
          some ((prodsM mfetch (List.range' 1 (p - 1))).length + m)⟩,
         p⟩ := by
  unfold search_products_mobile
  rw [range_split p k hp1 hpk]
  rw [mobilePages_skip mfetch t ht _ _ _ _ hg]
  rw [mobilePages_found mfetch t ht p _ _ _ h m hfp hm]
  simp only [List.nil_append, List.length_range']
  congr 1
  omega

/-- A mobile run that scans `p - 1` good pages and then hits a fetch error on
page `p`: the error is absorbed, the accumulated records are kept, and
exactly `p` fetches were issued. -/
theorem mobile_err_run (mfetch : Nat → FetchResult) (k p : Nat) (t : String)
    (ht : ¬ t = "") (hp1 : 1 ≤ p) (hpk : p ≤ k)
    (hg : ∀ q ∈ List.range' 1 (p - 1), goodM mfetch t q = true)
    (he : mErr (mfetch p)) :
    search_products_mobile mfetch k (some t)
      = ⟨prodsM mfetch (List.range' 1 (p - 1)), noInfo, p⟩ := by
  unfold search_products_mobile
  rw [range_split p k hp1 hpk]
  rw [mobilePages_skip mfetch t ht _ _ _ _ hg]
  rw [mobilePages_err mfetch t p _ _ _ he]
  simp only [List.nil_append, List.length_range']
  congr 1
  omega

/-- Browser analogue of `mobile_found_run`. -/
theorem browser_found_run (bfetch : Nat → BFetchResult) (k p m : Nat) (t : String)
    (h : Html) (ht : ¬ t = "") (hp1 : 1 ≤ p) (hpk : p ≤ k)
    (hg : ∀ q ∈ List.range' 1 (p - 1), goodB bfetch t q = true)
    (hfp : bfetch p = BFetchResult.ok h)
    (hm : idxOf1 (_extract_products_from_html h) t = some m) :
    search_products_browser true bfetch k (some t)
      = ⟨prodsB bfetch (List.range' 1 (p - 1)) ++ _extract_products_from_html h,
         ⟨true, some p, some m,
          some ((prodsB bfetch (List.range' 1 (p - 1))).length + m)⟩,
         p⟩ := by
  unfold search_products_browser
  rw [if_pos rfl]
  rw [range_split p k hp1 hpk]
  rw [browserPages_skip bfetch t ht _ _ _ _ hg]
  rw [browserPages_found bfetch t ht p _ _ _ h m hfp hm]
  simp only [List.nil_append, List.length_range']
  congr 1
  omega

/-- Browser analogue of `mobile_err_run`. -/
theorem browser_err_run (bfetch : Nat → BFetchResult) (k p : Nat) (t : String)
    (ht : ¬ t = "") (hp1 : 1 ≤ p) (hpk : p ≤ k)
    (hg : ∀ q ∈ List.range' 1 (p - 1), goodB bfetch t q = true)
    (he : bErr (bfetch p)) :
    search_products_browser true bfetch k (some t)
      = ⟨prodsB bfetch (List.range' 1 (p - 1)), noInfo, p⟩ := by
  unfold search_products_browser
  rw [if_pos rfl]
  rw [range_split p k hp1 hpk]
  rw [browserPages_skip bfetch t ht _ _ _ _ hg]
  rw [browserPages_err bfetch t p _ _ _ he]
  simp only [List.nil_append, List.length_range']
  congr 1
  omega

/-- An extraction containing the target at some position is nonempty. -/
theorem idxOf1_some_ne_nil (ps : List Product) (t : String) (m : Nat)
    (hm : idxOf1 ps t = some m) : ps ≠ [] := by
  intro hnil
  rw [hnil] at hm
  simp [idxOf1] at hm

/-! ## Correctness of the product-id regex search -/

theorem takeWhile_digits (d b : List Char) (hd : ∀ c ∈ d, c.isDigit = true) :
    (d ++ '/' :: b).takeWhile (fun ch => ch.isDigit) = d := by
  induction d with
  | nil =>
    simp only [List.nil_append]
    rw [List.takeWhile_cons_of_neg (by decide)]
  | cons c d ih =>
    have hc := hd c (List.mem_cons_self _ _)
    simp only [List.cons_append]
    rw [List.takeWhile_cons_of_pos hc,
      ih (fun x hx => hd x (List.mem_cons_of_mem _ hx))]

theorem takeWhile_append_drop_self (p : Char → Bool) (l : List Char) :
    l.takeWhile p ++ l.drop (l.takeWhile p).length = l := by
  induction l with
  | nil => rfl
  | cons c l ih =>
    by_cases hc : p c
    · rw [List.takeWhile_cons_of_pos hc]
      simpa using ih
    · rw [List.takeWhile_cons_of_neg hc]
      simp

/-- Soundness direction: a 10-plus-digit run between slashes is found. -/
theorem searchId10_of_run : ∀ a d b : List Char, (∀ c ∈ d, c.isDigit = true) →
    10 ≤ d.length → (searchId10 (a ++ '/' :: (d ++ '/' :: b))).isSome = true := by
  intro a
  induction a with
  | nil =>
    intro d b hd hlen
    simp only [List.nil_append, searchId10, if_pos rfl]
    rw [takeWhile_digits d b hd]
    rw [List.drop_left]
    simp [hlen]
  | cons x a ih =>
    intro d b hd hlen
    simp only [List.cons_append, searchId10]
    by_cases hx : x = '/'
    · rw [if_pos hx]
      split
      · simp
      · exact ih d b hd hlen
    · rw [if_neg hx]
      exact ih d b hd hlen

/-- Completeness direction: a successful search exhibits a 10-plus-digit run
between slashes. -/
theorem run_of_searchId10 : ∀ s d : List Char, searchId10 s = some d →
    ∃ a b : List Char, s = a ++ '/' :: (d ++ '/' :: b) ∧
      (∀ c ∈ d, c.isDigit = true) ∧ 10 ≤ d.length := by
  intro s
  induction s with
  | nil => intro d h; simp [searchId10] at h
  | cons c rest ih =>
    intro d h
    simp only [searchId10] at h
    by_cases hc : c = '/'
    · rw [if_pos hc] at h
      by_cases hcond : 10 ≤ (rest.takeWhile (fun ch => ch.isDigit)).length ∧
          (rest.drop (rest.takeWhile (fun ch => ch.isDigit)).length).head? = some '/'
      · rw [if_pos hcond] at h
        obtain ⟨hlen, hhead⟩ := hcond
        have hdd : rest.takeWhile (fun ch => ch.isDigit) = d := by
          injection h
        obtain ⟨tl, htl⟩ : ∃ tl, rest.drop
            (rest.takeWhile (fun ch => ch.isDigit)).length = '/' :: tl := by
          obtain ⟨ys, hys⟩ := List.head?_eq_some_iff.mp hhead
          exact ⟨ys, hys⟩
        refine ⟨[], tl, ?_, ?_, ?_⟩
        · have hsplit := takeWhile_append_drop_self (fun ch => ch.isDigit) rest
          rw [htl, hdd] at hsplit
          rw [hc, List.nil_append, hsplit]
        · intro x hx
          rw [← hdd] at hx
          exact List.mem_takeWhile_imp hx
        · rw [← hdd]; exact hlen
      · rw [if_neg hcond] at h
        obtain ⟨a, b, h1, h2, h3⟩ := ih d h
        exact ⟨c :: a, b, by rw [List.cons_append, h1], h2, h3⟩
    · rw [if_neg hc] at h
      obtain ⟨a, b, h1, h2, h3⟩ := ih d h
      exact ⟨c :: a, b, by rw [List.cons_append, h1], h2, h3⟩

/-- The executable search succeeds exactly on inputs containing a run of 10 or
more digits between path delimiters. -/
theorem hasIdRun_iff_searchId10 (url : String) :
    hasIdRun url ↔ (searchId10 url.data).isSome = true := by
  constructor
  · rintro ⟨a, d, b, heq, hd, hlen⟩
    rw [heq]
    exact searchId10_of_run a d b hd hlen
  · intro h
    obtain ⟨d, hd⟩ := Option.isSome_iff_exists.mp h
    obtain ⟨a, b, h1, h2, h3⟩ := run_of_searchId10 _ d hd
    exact ⟨a, d, b, h1, h2, h3⟩

/-! ## Scheduler loop lemma -/

theorem schedulerLoopEvents_stopped (flag : Nat → Bool) (fuel r : Nat)
    (h : flag r = false) : schedulerLoopEvents flag fuel r = [] := by
  cases fuel with
  | zero => rfl
  | succ fuel => simp [schedulerLoopEvents, h]

/-! ## Concrete fixtures used by witnesses and counterexamples -/

/-- A product hyperlink element whose name comes from a nested heading. -/
def mkAnchor (pid nm : String) : Element :=
  ⟨some ("/p/" ++ pid ++ "/"), some nm, none, "", none, none, none, none, none⟩

def elA : Element := mkAnchor "1111111111" "One one one"

def elB : Element := mkAnchor "2222222222" "Two two two"

def elT : Element := mkAnchor "9300000170626119" "Lenor geurbooster"

/-- The target id of the worked scenario in the repository. -/
def tgtId : String := "9300000170626119"

/-- A page without the target. -/
def pagePlain : Html := [elA]

/-- A page containing the target at on-page position 2. -/
def pageTgt : Html := [elB, elT]

/-- Mobile oracle: target appears on page 2. -/
def mfetchFound : Nat → FetchResult := fun q =>
  if q = 2 then FetchResult.ok pageTgt else FetchResult.ok pagePlain

/-- Mobile oracle: every page is the same target-free page. -/
def mfetchMiss : Nat → FetchResult := fun _ => FetchResult.ok pagePlain

/-- Mobile oracle: every fetch gets a non-200 status. -/
def mfetchHttpErr : Nat → FetchResult := fun _ => FetchResult.httpError

/-- Mobile oracle: page 1 is fine, page 2 raises. -/
def mfetchErrAt2 : Nat → FetchResult := fun q =>
  if q = 2 then FetchResult.exn else FetchResult.ok pagePlain

/-- Browser oracle: target appears on page 2. -/
def bfetchFound : Nat → BFetchResult := fun q =>
  if q = 2 then BFetchResult.ok pageTgt else BFetchResult.ok pagePlain

/-- Browser oracle: every fetch fails with a WebDriver error. -/
def bfetchWde : Nat → BFetchResult := fun _ => BFetchResult.wde

/-- Browser oracle: every page has two target-free records. -/
def bfetchTwo : Nat → BFetchResult := fun _ =>
  BFetchResult.ok [elB, mkAnchor "3333333333" "Three three three"]

/-- A product card carrying only a `data-product-id` attribute. -/
def cardOnly : Element :=
  ⟨none, none, none, "", none, none, none, some "1234567890", some "Nice Name"⟩

/-- A later hyperlink for the same product id. -/
def anchorDup : Element := mkAnchor "1234567890" "Other Name"

/-! ## Claim theorems -/

/-- C1: for every locate run in which the target product id first appears on
page `p` at 1-based position `m` of that page's extracted records, the
returned absolute position (`page_product`) equals the count of records
accumulated from all pages strictly before page `p` plus `m`. The first
conjunct covers runs matched by the mobile strategy; the second covers runs
matched by the browser strategy after the mobile one found nothing. -/
theorem C1_absolute_position (mfetch : Nat → FetchResult) (avail : Bool)
    (bfetch : Nat → BFetchResult) (k p m p2 m2 : Nat) (t : String) (h h2 : Html) :
    (¬ t = "" → 1 ≤ p → p ≤ k →
     (∀ q ∈ List.range' 1 (p - 1), goodM mfetch t q = true) →
     mfetch p = FetchResult.ok h →
     idxOf1 (_extract_products_from_html h) t = some m →
     (find_product_ranking mfetch avail bfetch k t).page_product
       = some ((prodsM mfetch (List.range' 1 (p - 1))).length + m))
    ∧ (¬ t = "" → (search_products_mobile mfetch k (some t)).info.found = false →
       1 ≤ p2 → p2 ≤ k →
       (∀ q ∈ List.range' 1 (p2 - 1), goodB bfetch t q = true) →
       bfetch p2 = BFetchResult.ok h2 →
       idxOf1 (_extract_products_from_html h2) t = some m2 →
       (find_product_ranking mfetch true bfetch k t).page_product
         = some ((prodsB bfetch (List.range' 1 (p2 - 1))).length + m2)) := by
  constructor
  · intro ht hp1 hpk hg hfp hm
    have hrun := mobile_found_run mfetch k p m t h ht hp1 hpk hg hfp hm
    simp [find_product_ranking, hrun]
  · intro ht hmf hp1 hpk hg hfp hm
    have hbrun := browser_found_run bfetch k p2 m2 t h2 ht hp1 hpk hg hfp hm
    have hEne : _extract_products_from_html h2 ≠ [] := idxOf1_some_ne_nil _ t m2 hm
    have hlen : 0 < (_extract_products_from_html h2).length := List.length_pos.mpr hEne
    simp [find_product_ranking, hmf, hbrun, hlen]

/-- C1 witness: concrete runs exercising both conjuncts of
`C1_absolute_position`. In the mobile run the target first appears on page 2
at position 2 after one record on page 1, so the absolute position is 3; the
browser run is analogous after the mobile strategy saw only error pages. -/
theorem C1_absolute_position_witness :
    (find_product_ranking mfetchFound false bfetchWde 3 tgtId).page_product
      = some ((prodsM mfetchFound (List.range' 1 (2 - 1))).length + 2)
    ∧ (find_product_ranking mfetchHttpErr true bfetchFound 3 tgtId).page_product
      = some ((prodsB bfetchFound (List.range' 1 (2 - 1))).length + 2) := by
  constructor
  · exact (C1_absolute_position mfetchFound false bfetchWde 3 2 2 0 0 tgtId
      pageTgt []).1 (by decide) (by decide) (by decide) (by decide) (by decide)
      (by decide)
  · exact (C1_absolute_position mfetchHttpErr true bfetchFound 3 0 0 2 2 tgtId
      [] pageTgt).2 (by decide) (by decide) (by decide) (by decide) (by decide)
      (by decide) (by decide)

/-- C2: each fetch strategy used by one locate run issues at most `k` page
fetches, and when the target is matched on page `p` the successful strategy
issues exactly `p` fetches (and, when that strategy is the mobile one, the
browser strategy is never invoked, so no page after the matching page is
fetched by anyone). -/
theorem C2_fetch_bounds (mfetch : Nat → FetchResult) (avail : Bool)
    (bfetch : Nat → BFetchResult) (k p m p2 m2 : Nat) (t : String) (h h2 : Html) :
    (locateFetches mfetch avail bfetch k t).1 ≤ k
    ∧ (locateFetches mfetch avail bfetch k t).2 ≤ k
    ∧ (¬ t = "" → 1 ≤ p → p ≤ k →
       (∀ q ∈ List.range' 1 (p - 1), goodM mfetch t q = true) →
       mfetch p = FetchResult.ok h →
       idxOf1 (_extract_products_from_html h) t = some m →
       locateFetches mfetch avail bfetch k t = (p, 0))
    ∧ (¬ t = "" → (search_products_mobile mfetch k (some t)).info.found = false →
       1 ≤ p2 → p2 ≤ k →
       (∀ q ∈ List.range' 1 (p2 - 1), goodB bfetch t q = true) →
       bfetch p2 = BFetchResult.ok h2 →
       idxOf1 (_extract_products_from_html h2) t = some m2 →
       (locateFetches mfetch true bfetch k t).2 = p2) := by
  have hmb : (search_products_mobile mfetch k (some t)).fetches ≤ k := by
    have := mobilePages_fetches_le mfetch (some t) (List.range' 1 k) [] 0
    simpa [search_products_mobile, List.length_range'] using this
  have hbb : ∀ a : Bool, (search_products_browser a bfetch k (some t)).fetches ≤ k := by
    intro a
    cases a
    · simp [search_products_browser]
    · have := browserPages_fetches_le bfetch (some t) (List.range' 1 k) [] 0
      simpa [search_products_browser, List.length_range'] using this
  refine ⟨?_, ?_, ?_, ?_⟩
  · by_cases hf : (search_products_mobile mfetch k (some t)).info.found
    · simpa [locateFetches, hf] using hmb
    · simpa [locateFetches, hf] using hmb
  · by_cases hf : (search_products_mobile mfetch k (some t)).info.found
    · simp [locateFetches, hf]
    · simpa [locateFetches, hf] using hbb avail
  · intro ht hp1 hpk hg hfp hm
    have hrun := mobile_found_run mfetch k p m t h ht hp1 hpk hg hfp hm
    simp [locateFetches, hrun]
  · intro ht hmf hp1 hpk hg hfp hm
    have hbrun := browser_found_run bfetch k p2 m2 t h2 ht hp1 hpk hg hfp hm
    simp [locateFetches, hmf, hbrun]

/-- C2 witness: with the target on page 2 of 3, the mobile strategy issues
exactly 2 fetches and the browser strategy none; with the mobile strategy
failing, the browser strategy finds the target on page 2 with exactly 2
fetches; all counts are within the page cap. -/
theorem C2_fetch_bounds_witness :
    (locateFetches mfetchFound false bfetchWde 3 tgtId).1 ≤ 3
    ∧ (locateFetches mfetchFound false bfetchWde 3 tgtId).2 ≤ 3
    ∧ locateFetches mfetchFound false bfetchWde 3 tgtId = (2, 0)
    ∧ (locateFetches mfetchHttpErr true bfetchFound 3 tgtId).2 = 2 := by
  refine ⟨(C2_fetch_bounds mfetchFound false bfetchWde 3 0 0 0 0 tgtId [] []).1,
    (C2_fetch_bounds mfetchFound false bfetchWde 3 0 0 0 0 tgtId [] []).2.1, ?_, ?_⟩
  · exact (C2_fetch_bounds mfetchFound false bfetchWde 3 2 2 0 0 tgtId pageTgt
      []).2.2.1 (by decide) (by decide) (by decide) (by decide) (by decide)
      (by decide)
  · exact (C2_fetch_bounds mfetchHttpErr true bfetchFound 3 0 0 2 2 tgtId []
      pageTgt).2.2.2 (by decide) (by decide) (by decide) (by decide) (by decide)
      (by decide) (by decide)

/-- C3 counterexample: the dedupe set lives inside one extractor call, so a
two-page mobile run in which both pages carry the same product link
accumulates the same identifier twice — cross-page uniqueness fails. -/
theorem C3_cross_page_duplicate :
    ((search_products_mobile mfetchMiss 2 (some tgtId)).products.map Product.id)
      = ["1111111111", "1111111111"]
    ∧ ¬ ((search_products_mobile mfetchMiss 2 (some tgtId)).products.map
        Product.id).Nodup := by
  decide

/-- C3 (amended): identifier uniqueness holds within one extractor call (one
page); a search run accumulates the per-page extractions by concatenation,
without any cross-page dedupe, so the run-level list may repeat identifiers
(as `C3_cross_page_duplicate` shows). -/
theorem C3_per_page_unique :
    (∀ doc : Html, ((_extract_products_from_html doc).map Product.id).Nodup)
    ∧ (∀ (mfetch : Nat → FetchResult) (k : Nat) (t : String), ¬ t = "" →
       (∀ q ∈ List.range' 1 k, goodM mfetch t q = true) →
       (search_products_mobile mfetch k (some t)).products
         = prodsM mfetch (List.range' 1 k)) := by
  constructor
  · exact extract_ids_nodup
  · intro mfetch k t ht hg
    unfold search_products_mobile
    have h0 : List.range' 1 k = List.range' 1 k ++ [] := by simp
    conv_lhs => rw [h0]
    rw [mobilePages_skip mfetch t ht _ _ _ _ hg]
    simp [mobilePages]

/-- C3 witness: the per-page invariant on a concrete page, and a concrete
two-page run whose accumulated list is exactly the concatenation of its
per-page extractions. -/
theorem C3_per_page_unique_witness :
    ((_extract_products_from_html pageTgt).map Product.id).Nodup
    ∧ (search_products_mobile mfetchMiss 2 (some tgtId)).products
        = prodsM mfetchMiss (List.range' 1 2) :=
  ⟨C3_per_page_unique.1 pageTgt,
   C3_per_page_unique.2 mfetchMiss 2 tgtId (by decide) (by decide)⟩

/-- C4 counterexample: a product card carrying `data-product-id` precedes, in
document order, a hyperlink for the same identifier; the extractor keeps the
record built from the hyperlink (second in document order), because the
hyperlink pass runs before the data-attribute pass, and the kept record
differs from the record of the first occurrence in document order. -/
theorem C4_doc_order_violated :
    _extract_products_from_html [cardOnly, anchorDup]
      = [⟨"1234567890", "Other Name", "https://www.bol.com/p/1234567890/"⟩]
    ∧ firstDocRecordFor [cardOnly, anchorDup] "1234567890"
        = some ⟨"1234567890", "Nice Name", "https://www.bol.com/nl/nl/p/1234567890/"⟩
    ∧ (⟨"1234567890", "Other Name", "https://www.bol.com/p/1234567890/"⟩ : Product)
        ≠ ⟨"1234567890", "Nice Name", "https://www.bol.com/nl/nl/p/1234567890/"⟩ := by
  decide

/-- C4 (amended): one extractor call returns a sequence with no duplicate
identifiers, and the record kept for each identifier is the one from its
first occurrence in the extractor's scan order — all product hyperlinks in
document order followed by all product-id-attribute cards in document order —
with the output preserving that first-extraction order. -/
theorem C4_scan_order_dedupe (doc : Html) :
    _extract_products_from_html doc
      = dedupeByFirst (doc.filterMap anchorRecord ++ doc.filterMap cardRecord) []
    ∧ ((_extract_products_from_html doc).map Product.id).Nodup :=
  ⟨extract_eq_dedupe doc, extract_ids_nodup doc⟩

/-- C5 counterexample: the mobile strategy accumulates one record and does
not find the target; the browser strategy accumulates two records, also does
not find it, and because it yielded at least one record its list replaces the
mobile list, so `total_found` is 2, not the mobile strategy's 1. -/
theorem C5_total_from_browser :
    (find_product_ranking mfetchMiss true bfetchTwo 1 tgtId).total_found = 2
    ∧ (search_products_mobile mfetchMiss 1 (some tgtId)).products.length = 1
    ∧ (search_products_mobile mfetchMiss 1 (some tgtId)).info.found = false
    ∧ (search_products_browser true bfetchTwo 1 (some tgtId)).info.found = false := by
  decide

/-- C5 (amended): when neither strategy finds the target, the result has
`position`, `page_product` (absolutePosition), `page` and `product` all null,
and `total_found` is the count accumulated by the browser strategy when that
strategy yielded at least one record, else the count accumulated by the
mobile strategy. -/
theorem C5_not_found_result (mfetch : Nat → FetchResult) (avail : Bool)
    (bfetch : Nat → BFetchResult) (k : Nat) (t : String)
    (hm : (search_products_mobile mfetch k (some t)).info.found = false)
    (hb : (search_products_browser avail bfetch k (some t)).info.found = false) :
    find_product_ranking mfetch avail bfetch k t
      = ⟨none, none, none, none,
         if 0 < (search_products_browser avail bfetch k (some t)).products.length
         then (search_products_browser avail bfetch k (some t)).products.length
         else (search_products_mobile mfetch k (some t)).products.length⟩ := by
  by_cases hlen : 0 < (search_products_browser avail bfetch k (some t)).products.length
  · simp [find_product_ranking, hm, hb, hlen]
  · simp [find_product_ranking, hm, hb, hlen]

/-- C5 witness: `C5_not_found_result` at a concrete double-miss run. -/
theorem C5_not_found_result_witness :
    find_product_ranking mfetchMiss true bfetchTwo 1 tgtId
      = ⟨none, none, none, none,
         if 0 < (search_products_browser true bfetchTwo 1 (some tgtId)).products.length
         then (search_products_browser true bfetchTwo 1 (some tgtId)).products.length
         else (search_products_mobile mfetchMiss 1 (some tgtId)).products.length⟩ :=
  C5_not_found_result mfetchMiss true bfetchTwo 1 tgtId (by decide) (by decide)

/-- C6: a transport or parse error inside either fetch strategy is absorbed
at that strategy's boundary — the loop stops, the records accumulated before
the error are kept, and no further result comes from that strategy — and a
locate run whose strategies produced no match returns the ordinary not-found
result instead of propagating the error (the strategy functions and
`find_product_ranking` are total over all error-carrying oracles). -/
theorem C6_errors_absorbed (mfetch : Nat → FetchResult)
    (bfetch : Nat → BFetchResult) (k p p2 : Nat) (t : String) :
    (¬ t = "" → 1 ≤ p → p ≤ k →
     (∀ q ∈ List.range' 1 (p - 1), goodM mfetch t q = true) → mErr (mfetch p) →
     search_products_mobile mfetch k (some t)
       = ⟨prodsM mfetch (List.range' 1 (p - 1)), noInfo, p⟩)
    ∧ (¬ t = "" → 1 ≤ p2 → p2 ≤ k →
       (∀ q ∈ List.range' 1 (p2 - 1), goodB bfetch t q = true) → bErr (bfetch p2) →
       search_products_browser true bfetch k (some t)
         = ⟨prodsB bfetch (List.range' 1 (p2 - 1)), noInfo, p2⟩)
    ∧ (¬ t = "" → 1 ≤ p → p ≤ k →
       (∀ q ∈ List.range' 1 (p - 1), goodM mfetch t q = true) → mErr (mfetch p) →
       find_product_ranking mfetch false bfetch k t
         = ⟨none, none, none, none,
            (prodsM mfetch (List.range' 1 (p - 1))).length⟩) := by
  refine ⟨?_, ?_, ?_⟩
  · intro ht hp1 hpk hg he
    exact mobile_err_run mfetch k p t ht hp1 hpk hg he
  · intro ht hp1 hpk hg he
    exact browser_err_run bfetch k p2 t ht hp1 hpk hg he
  · intro ht hp1 hpk hg he
    have hrun := mobile_err_run mfetch k p t ht hp1 hpk hg he
    simp [find_product_ranking, hrun, search_products_browser, noInfo]

/-- C6 witness: a mobile run erroring on page 2 keeps page 1's record and
stops at 2 fetches; a browser run erroring on page 1 keeps nothing; the
locate run built on the erroring mobile oracle returns the plain not-found
result. -/
theorem C6_errors_absorbed_witness :
    search_products_mobile mfetchErrAt2 3 (some tgtId)
      = ⟨prodsM mfetchErrAt2 (List.range' 1 (2 - 1)), noInfo, 2⟩
    ∧ search_products_browser true bfetchWde 3 (some tgtId)
      = ⟨prodsB bfetchWde (List.range' 1 (1 - 1)), noInfo, 1⟩
    ∧ find_product_ranking mfetchErrAt2 false bfetchWde 3 tgtId
      = ⟨none, none, none, none,
         (prodsM mfetchErrAt2 (List.range' 1 (2 - 1))).length⟩ :=
  ⟨(C6_errors_absorbed mfetchErrAt2 bfetchWde 3 2 1 tgtId).1 (by decide) (by decide)
     (by decide) (by decide) (Or.inr (by decide)),
   (C6_errors_absorbed mfetchErrAt2 bfetchWde 3 2 1 tgtId).2.1 (by decide)
     (by decide) (by decide) (by decide) (Or.inl (by decide)),
   (C6_errors_absorbed mfetchErrAt2 bfetchWde 3 2 1 tgtId).2.2 (by decide)
     (by decide) (by decide) (by decide) (Or.inr (by decide))⟩

/-- C7 counterexample: `find_product_ranking` performs no validation of the
target id — called directly with the malformed target `"abc"` (which contains
no run of 10 or more digits between path delimiters) it still issues a page
fetch, i.e. network activity happens, and it returns an ordinary not-found
result rather than raising. -/
theorem C7_no_validation_in_locate :
    searchId10 ("abc".data) = none
    ∧ locateFetches mfetchHttpErr false bfetchWde 3 "abc" = (1, 0)
    ∧ find_product_ranking mfetchHttpErr false bfetchWde 3 "abc"
        = ⟨none, none, none, none, 0⟩
    ∧ ¬ hasIdRun "abc" := by
  refine ⟨by decide, by decide, by decide, ?_⟩
  intro hrun
  have h := (hasIdRun_iff_searchId10 "abc").mp hrun
  have h2 : searchId10 ("abc".data) = none := by decide
  rw [h2] at h
  simp at h

/-- C7 (amended): the input validation lives in `get_product_id`, called by
the URL-accepting entry points before any network activity: on a URL without
a run of 10 or more digits between path delimiters it raises `ValueError`,
so `track_product` returns `None` having issued zero fetches; on a
well-formed URL it yields a product id. `find_product_ranking` itself never
validates its target id (see `C7_no_validation_in_locate`). -/
theorem C7_validation_at_url_entry (mfetch : Nat → FetchResult) (avail : Bool)
    (bfetch : Nat → BFetchResult) (k : Nat) (url : String) :
    (¬ hasIdRun url →
      get_product_id url = Except.error "Could not extract product ID from URL"
      ∧ track_product mfetch avail bfetch k url = none
      ∧ trackFetches mfetch avail bfetch k url = (0, 0))
    ∧ (hasIdRun url → ∃ pid, get_product_id url = Except.ok pid) := by
  constructor
  · intro hno
    have hnone : searchId10 url.data = none := by
      cases hs : searchId10 url.data with
      | none => rfl
      | some d =>
        exact absurd ((hasIdRun_iff_searchId10 url).mpr (by simp [hs])) hno
    refine ⟨?_, ?_, ?_⟩ <;>
      simp [get_product_id, track_product, trackFetches, hnone]
  · intro hyes
    obtain ⟨d, hd⟩ :=
      Option.isSome_iff_exists.mp ((hasIdRun_iff_searchId10 url).mp hyes)
    exact ⟨String.mk d, by simp [get_product_id, hd]⟩

/-- C7 witness: the malformed URL `"abc"` is rejected with zero fetches; the
repository's worked product URL yields an id. -/
theorem C7_validation_at_url_entry_witness :
    (get_product_id "abc" = Except.error "Could not extract product ID from URL"
     ∧ track_product mfetchHttpErr false bfetchWde 3 "abc" = none
     ∧ trackFetches mfetchHttpErr false bfetchWde 3 "abc" = (0, 0))
    ∧ ∃ pid, get_product_id
        "https://www.bol.com/nl/nl/p/lenor-geurbooster/9300000170626119/"
        = Except.ok pid := by
  constructor
  · refine (C7_validation_at_url_entry mfetchHttpErr false bfetchWde 3 "abc").1 ?_
    intro hrun
    have h := (hasIdRun_iff_searchId10 "abc").mp hrun
    have h2 : searchId10 ("abc".data) = none := by decide
    rw [h2] at h
    simp at h
  · exact (C7_validation_at_url_entry mfetchHttpErr false bfetchWde 3
      "https://www.bol.com/nl/nl/p/lenor-geurbooster/9300000170626119/").2
      ⟨"https://www.bol.com/nl/nl/p/lenor-geurbooster".data,
       "9300000170626119".data, [], by decide, by decide, by decide⟩

/-- C8: for every current local time strictly before the fixed 09:00 trigger
(32400 seconds into the day), the next run time is today at 09:00:00; for
every current local time at or after 09:00 it is tomorrow at 09:00:00; and
the next run time is always strictly after the current time. -/
theorem C8_next_run_time (now : LocalTime) :
    (now.sec < triggerSec → _get_next_run_time now = ⟨now.day, triggerSec⟩)
    ∧ (triggerSec ≤ now.sec → _get_next_run_time now = ⟨now.day + 1, triggerSec⟩)
    ∧ timeLt now (_get_next_run_time now) := by
  refine ⟨?_, ?_, ?_⟩
  · intro h
    simp [_get_next_run_time, Nat.not_le.mpr h]
  · intro h
    simp [_get_next_run_time, h]
  · unfold _get_next_run_time timeLt
    by_cases h : triggerSec ≤ now.sec
    · rw [if_pos h]
      exact Or.inl (show now.day < now.day + 1 by omega)
    · rw [if_neg h]
      exact Or.inr ⟨rfl, show now.sec < triggerSec by omega⟩

/-- C8 witness: at 08:00:00 (28800 s) the next run is today 09:00; at
09:00:01 (32401 s) it is tomorrow 09:00; and at 08:00 the computed time is
strictly in the future. -/
theorem C8_next_run_time_witness :
    _get_next_run_time ⟨0, 28800⟩ = ⟨0, triggerSec⟩
    ∧ _get_next_run_time ⟨5, 32401⟩ = ⟨6, triggerSec⟩
    ∧ timeLt ⟨0, 28800⟩ (_get_next_run_time ⟨0, 28800⟩) :=
  ⟨(C8_next_run_time ⟨0, 28800⟩).1 (by decide),
   (C8_next_run_time ⟨5, 32401⟩).2.1 (by decide),
   (C8_next_run_time ⟨0, 28800⟩).2.2⟩

/-- C9: in every loop iteration (while-test read index `r`), the running flag
is re-read after the sleep (read index `r + 1`) and before the batch routine;
a stop requested while the loop sleeps — the flag is true when the iteration
starts and false from the post-sleep read on — yields exactly the sleep event
and no batch run, however much fuel remains. -/
theorem C9_recheck_after_sleep (flag : Nat → Bool) (fuel r : Nat)
    (h1 : flag r = true) (h2 : ∀ j, r < j → flag j = false) :
    schedulerLoopEvents flag (fuel + 1) r = [SchedEv.sleepEv] := by
  have hr1 : flag (r + 1) = false := h2 _ (by omega)
  simp only [schedulerLoopEvents, h1, hr1, if_true, Bool.false_eq_true, if_false]
  rw [schedulerLoopEvents_stopped flag fuel (r + 2) (h2 _ (by omega))]

/-- C9 witness: a flag that turns false right after the first while-test
produces one sleep and no batch. -/
theorem C9_recheck_after_sleep_witness :
    schedulerLoopEvents (fun j => decide (j = 0)) 4 0 = [SchedEv.sleepEv] :=
  C9_recheck_after_sleep (fun j => decide (j = 0)) 3 0 (by decide)
    (fun j hj => by simp only [decide_eq_false_iff_not]; omega)

/-- C10 counterexample: for an entry with no stored name whose located
product carries the sentinel name, the backfill statement writes the located
name verbatim — the tracked entry's name becomes the sentinel string itself,
not a name derived from the tracked URL. -/
theorem C10_backfill_stores_sentinel :
    backfillStoredName none (some ⟨"9300000170626119", unknownName, "u"⟩)
      = some unknownName
    ∧ unknownName = "Unknown Product" := by
  decide

/-- C10 (amended): when the located product's name is the sentinel, the name
appended to history is never copied from the located product — it is the
previously stored name when that is usable, else a name derived from the
tracked URL — but the opportunistic backfill (performed exactly when the
stored name is falsy) writes the located name verbatim, sentinel included. -/
theorem C10_sentinel_name_handling (stored : Option String) (url : String)
    (p : Product) (hs : p.name = unknownName) :
    historyNameFor stored url (some p)
      = (if storedUsable stored then stored.getD ""
         else _extract_name_from_url url)
    ∧ backfillStoredName stored (some p)
      = (if storedFalsy stored then some unknownName else none) := by
  constructor
  · simp [historyNameFor, hs]
  · by_cases h : storedFalsy stored = true
    · simp [backfillStoredName, h, hs]
    · simp [backfillStoredName, h]

/-- C10 witness: an entry with empty stored name whose located product is the
sentinel gets a URL-derived history name and a sentinel backfill. -/
theorem C10_sentinel_name_handling_witness :
    historyNameFor none
        "https://www.bol.com/nl/nl/p/lenor-geurbooster/9300000170626119/"
        (some ⟨"9300000170626119", unknownName, "u"⟩)
      = (if storedUsable none then (none : Option String).getD ""
         else _extract_name_from_url
           "https://www.bol.com/nl/nl/p/lenor-geurbooster/9300000170626119/")
    ∧ backfillStoredName none (some ⟨"9300000170626119", unknownName, "u"⟩)
      = (if storedFalsy none then some unknownName else none) :=
  C10_sentinel_name_handling none
    "https://www.bol.com/nl/nl/p/lenor-geurbooster/9300000170626119/"
    ⟨"9300000170626119", unknownName, "u"⟩ rfl
